import Mathlib

/-!
Verification development for the flash-sale system (Go backend + load harness).

The definitions below are a shallow embedding of the repository's code:

* `backend/internal/handlers` (source file `part_001`): the three purchase
  strategies `PurchaseNaive`, `PurchasePostgresLock`, `PurchaseRedisPostgres`,
  the stats counters, `ResetStats` and `GetStats`;
* `backend/cmd/api/main.go`: the `/reset` and `/sync-redis` handlers;
* `scripts/attack.go` and the dashboard's `runBatch` (source file `part_002`):
  the two load-generation drivers.

The database (PostgreSQL) is modelled as an association list of
`(product id, quantity)` rows plus a list of order rows; a transaction's
writes become visible only at the commit step, and a rollback leaves the
state untouched.  Redis holds a single key `product:1:stock` (the only key
the code ever names); its value is modelled as `Option Int`, `none` meaning
the key is absent.  Infrastructure faults (driver errors on begin / query /
update / insert / commit, Redis errors, malformed request bodies) are
injected through explicit fault records, one flag per failure point present
in the Go error handling.
-/

namespace FlashSale

/-- `PurchaseRequest` from `part_001` lines 14-17: `user_id`, `product_id`. -/
structure PurchaseRequest where
  userId : Int
  productId : Int
deriving DecidableEq, Repr

/-- One row of the `orders` table (`user_id`, `product_id`, `status`);
the strategies insert rows with status `success` only. -/
structure OrderRow where
  userId : Int
  productId : Int
  status : String
deriving DecidableEq, Repr

/-- The five package-level stats counters of `part_001` lines 20-26. -/
structure Stats where
  totalRequests : Int
  successCount : Int
  failCount : Int
  oversellCount : Int
  totalLatencyMs : Int
deriving DecidableEq, Repr

/-- Observable system state: the `products` table (id ↦ quantity rows), the
`orders` table, the value of the Redis key `product:1:stock` (`none` when
absent), and the stats counters. -/
structure SysState where
  products : List (Int × Int)
  orders : List OrderRow
  redis : Option Int
  stats : Stats
deriving DecidableEq, Repr

/-- `SELECT quantity FROM products WHERE id=$1`: `none` when no row matches
(in which case `Scan` returns an error in the Go code). -/
def selectQuantity (pid : Int) (products : List (Int × Int)) : Option Int :=
  (products.find? (fun p => p.1 == pid)).map (fun p => p.2)

/-- `UPDATE products SET quantity = quantity - 1 WHERE id=$1`: decrements
every matching row; matching zero rows is not an error in SQL. -/
def updateDecrementQuantity (pid : Int) (products : List (Int × Int)) : List (Int × Int) :=
  products.map (fun p => if p.1 == pid then (p.1, p.2 - 1) else p)

/-- Whether a `products` row with this id exists; the `orders.product_id`
foreign key makes an order insert fail exactly when it does not. -/
def productRowExists (pid : Int) (products : List (Int × Int)) : Bool :=
  products.any (fun p => p.1 == pid)

/-- The row written by
`INSERT INTO orders (user_id, product_id, status) VALUES ($1, $2, 'success')`. -/
def successOrder (req : PurchaseRequest) : OrderRow :=
  { userId := req.userId, productId := req.productId, status := "success" }

/-! ### Stats counter operations (`part_001` lines 20-55) -/

/-- `atomic.AddInt64(&TotalRequests, 1)` at every handler entry. -/
def recordAttempt (st : SysState) : SysState :=
  { st with stats := { st.stats with totalRequests := st.stats.totalRequests + 1 } }

/-- `atomic.AddInt64(&FailCount, 1)`. -/
def addFail (st : SysState) : SysState :=
  { st with stats := { st.stats with failCount := st.stats.failCount + 1 } }

/-- `atomic.AddInt64(&SuccessCount, 1)`. -/
def addSuccess (st : SysState) : SysState :=
  { st with stats := { st.stats with successCount := st.stats.successCount + 1 } }

/-- `atomic.AddInt64(&TotalLatencyMs, lat)`; the measured elapsed time is an
input of the model. -/
def addLatency (lat : Int) (st : SysState) : SysState :=
  { st with stats := { st.stats with totalLatencyMs := st.stats.totalLatencyMs + lat } }

/-- `ResetStats` (`part_001` lines 28-34): stores 0 into all five counters. -/
def resetStatsCounters : Stats :=
  { totalRequests := 0, successCount := 0, failCount := 0
    oversellCount := 0, totalLatencyMs := 0 }

/-- The `oversells` field of the `GetStats` snapshot (`part_001` lines 40, 52):
a plain load of `OversellCount`. -/
def getStatsOversells (st : SysState) : Int :=
  st.stats.oversellCount

/-! ### Redis operations -/

/-- The Lua gate of `PurchaseRedisPostgres` (`part_001` lines 207-217),
executed by Redis as one indivisible operation: `GET` the key; if absent
return `-1`; if the value is `≤ 0` return `-1` without writing; otherwise
`DECR` and return the new value.  First component: the script's return
value; second: the key's value afterwards. -/
def luaGate : Option Int → Int × Option Int
  | none => (-1, none)
  | some stock => if stock ≤ 0 then (-1, some stock) else (stock - 1, some (stock - 1))

/-- Redis `INCR`: absent keys are treated as 0, so `INCR` on an absent key
sets it to 1. -/
def redisIncr : Option Int → Option Int
  | none => some 1
  | some v => some (v + 1)

/-- The compensating `database.Rdb.Incr(ctx, "product:1:stock")` issued on
every ledger failure after the gate (`part_001` lines 234, 244, 254, 262). -/
def compensate (st : SysState) : SysState :=
  { st with redis := redisIncr st.redis }

/-- The literal key list passed to `Rdb.Eval` at `part_001` line 218. -/
def gateLuaKeys : List String := ["product:1:stock"]

/-- The literal key of the compensating `Incr` calls
(`part_001` lines 234, 244, 254, 262). -/
def compensateKey : String := "product:1:stock"

/-- Modelled from the spec: "Cache Counter Entry: key scoped to a product" —
the per-product cache key the specification describes.  The source never
builds a key from the request's product id; this definition exists to be
compared with `gateLuaKeys` and `compensateKey`. -/
def productStockKey (pid : Int) : String :=
  "product:" ++ toString pid ++ ":stock"

/-! ### Outcomes -/

/-- The HTTP response of one purchase attempt: 200 with a success body,
400 with an error message, or 500 with an error message.  The message
strings are the ones in the Go handlers. -/
inductive Outcome where
  | ok : Outcome
  | badRequest : String → Outcome
  | serverError : String → Outcome
deriving DecidableEq, Repr

/-! ### Fault records

One Boolean per failure point present in the Go error handling.  `bindFails`
models `c.ShouldBindJSON` rejecting the request body; the others model the
driver returning an error from the named call. -/

/-- Failure points of `PurchaseNaive`. -/
structure NaiveFaults where
  bindFails : Bool
  readFails : Bool
  updateFails : Bool
  insertFails : Bool
deriving DecidableEq, Repr

/-- Failure points of `PurchasePostgresLock`. -/
structure LockFaults where
  bindFails : Bool
  beginFails : Bool
  lockReadFails : Bool
  updateFails : Bool
  insertFails : Bool
  commitFails : Bool
deriving DecidableEq, Repr

/-- Failure points of `PurchaseRedisPostgres`. -/
structure GatedFaults where
  bindFails : Bool
  redisEvalFails : Bool
  beginFails : Bool
  updateFails : Bool
  insertFails : Bool
  commitFails : Bool
deriving DecidableEq, Repr

/-- A fault-free attempt. -/
def NaiveFaults.none : NaiveFaults := ⟨false, false, false, false⟩

/-- A fault-free attempt. -/
def LockFaults.none : LockFaults := ⟨false, false, false, false, false, false⟩

/-- A fault-free attempt. -/
def GatedFaults.none : GatedFaults := ⟨false, false, false, false, false, false⟩

/-! ### The three purchase handlers, sequential semantics

Each handler is a function from the request, a fault record and the measured
latency to the outcome and the state after the attempt.  Interleaving-
sensitive behaviour (the naive race, the gated two-phase structure) is
modelled separately by small-step machines below; these functions give the
effect of one attempt running without interference, which is what the
error-handling and compensation claims quantify over. -/

/-- `PurchaseNaive` (`part_001` lines 60-117): read the quantity with a plain
`SELECT`, fail on `quantity <= 0`, sleep 5 ms, then `UPDATE` and `INSERT`
as two separate non-transactional statements. -/
def purchaseNaive (req : PurchaseRequest) (f : NaiveFaults) (lat : Int)
    (st : SysState) : Outcome × SysState :=
  let st := recordAttempt st
  if f.bindFails then (.badRequest "Invalid input", addFail st)
  else if f.readFails then (.serverError "DB error", addFail st)
  else
    match selectQuantity req.productId st.products with
    | none => (.serverError "DB error", addFail st)
    | some quantity =>
      if quantity ≤ 0 then (.badRequest "Out of stock!", addFail st)
      else
        -- 5 ms sleep: no shared-state effect in the single-attempt semantics
        if f.updateFails then (.serverError "Update failed", addFail st)
        else
          let st := { st with products := updateDecrementQuantity req.productId st.products }
          if f.insertFails then (.serverError "Order failed", addFail st)
          else if productRowExists req.productId st.products then
            (.ok, addLatency lat (addSuccess { st with orders := st.orders ++ [successOrder req] }))
          else (.serverError "Order failed", addFail st)

/-- `PurchasePostgresLock` (`part_001` lines 122-189): a transaction holding
`SELECT ... FOR UPDATE` on the product row; the `UPDATE` and `INSERT` are
buffered in the transaction and become visible only at `Commit`; any failure
rolls the transaction back, leaving the tables untouched. -/
def purchasePostgresLock (req : PurchaseRequest) (f : LockFaults) (lat : Int)
    (st : SysState) : Outcome × SysState :=
  let st := recordAttempt st
  if f.bindFails then (.badRequest "Invalid input", addFail st)
  else if f.beginFails then (.serverError "Transaction failed", addFail st)
  else if f.lockReadFails then (.serverError "Lock failed", addFail st)
  else
    match selectQuantity req.productId st.products with
    | none => (.serverError "Lock failed", addFail st)
    | some quantity =>
      if quantity ≤ 0 then (.badRequest "Out of stock!", addFail st)
      else if f.updateFails then (.serverError "Update failed", addFail st)
      else if f.insertFails then (.serverError "Order failed", addFail st)
      else if f.commitFails then (.serverError "Commit failed", addFail st)
      else
        (.ok, addLatency lat (addSuccess
          { st with products := updateDecrementQuantity req.productId st.products
                    orders := st.orders ++ [successOrder req] }))

/-- The ledger phase of `PurchaseRedisPostgres` (`part_001` lines 232-269),
entered only after the gate returned a non-negative value: begin a
transaction, `UPDATE` the product row, `INSERT` the order, `Commit`; every
failure branch issues the compensating `Incr` on `product:1:stock` and
reports failure.  An order insert also fails when no product row matches the
foreign key. -/
def gatedLedgerPhase (req : PurchaseRequest) (f : GatedFaults) (lat : Int)
    (st : SysState) : Outcome × SysState :=
  if f.beginFails then (.serverError "Transaction failed", addFail (compensate st))
  else if f.updateFails then (.serverError "Update failed", addFail (compensate st))
  else if f.insertFails then (.serverError "Order failed", addFail (compensate st))
  else if productRowExists req.productId st.products then
    if f.commitFails then (.serverError "Commit failed", addFail (compensate st))
    else
      (.ok, addLatency lat (addSuccess
        { st with products := updateDecrementQuantity req.productId st.products
                  orders := st.orders ++ [successOrder req] }))
  else (.serverError "Order failed", addFail (compensate st))

/-- `PurchaseRedisPostgres` (`part_001` lines 194-276): run the Lua gate on
the fixed key `product:1:stock`; on a negative return fail with
`Out of stock!` without touching the ledger; otherwise run the ledger
phase. -/
def purchaseRedisPostgres (req : PurchaseRequest) (f : GatedFaults) (lat : Int)
    (st : SysState) : Outcome × SysState :=
  let st := recordAttempt st
  if f.bindFails then (.badRequest "Invalid input", addFail st)
  else if f.redisEvalFails then (.serverError "Redis error", addFail st)
  else
    let g := luaGate st.redis
    let st := { st with redis := g.2 }
    if g.1 < 0 then (.badRequest "Out of stock!", addFail st)
    else gatedLedgerPhase req f lat st

/-! ### The `/reset` and `/sync-redis` handlers (`main.go` lines 136-179) -/

/-- The `/reset` handler, success path: `UPDATE products SET quantity = 100
WHERE id = 1`, `DELETE FROM orders`, `SET product:1:stock 100`, then
`ResetStats()`. -/
def resetHandler (st : SysState) : SysState :=
  { products := st.products.map (fun p => if p.1 == 1 then (p.1, (100 : Int)) else p)
    orders := []
    redis := some 100
    stats := resetStatsCounters }

/-- The `/sync-redis` handler: read product 1's quantity (`none` = the read
errors and nothing changes, modelled as `Option.none`), clamp it at 0, and
`SET` it into `product:1:stock`. -/
def syncRedisHandler (st : SysState) : Option SysState :=
  match selectQuantity 1 st.products with
  | none => none
  | some dbStock => some { st with redis := some (if dbStock < 0 then 0 else dbStock) }

/-- The state after seeding (`seed.go`: one product with quantity 100, key
`product:1:stock` set to 100) or equivalently after a successful `/reset`
on the seeded database: the reset state the testable properties start
from. -/
def initialState : SysState :=
  { products := [(1, 100)]
    orders := []
    redis := some 100
    stats := resetStatsCounters }

/-! ### Interleaved executions of the Pessimistic-Locked strategy

`SELECT ... FOR UPDATE` holds an exclusive lock on the product row from the
locking read to commit or rollback, so everything between them is mutually
exclusive with every other attempt on the same row: one attempt is one
atomic event of the execution. -/

/-- One event of a locked execution: a complete `PurchasePostgresLock`
attempt (the row lock serializes the attempts). -/
inductive LockedEv where
  | attempt : PurchaseRequest → LockFaults → Int → LockedEv

/-- Effect of one locked event on the state. -/
def lockedStep (st : SysState) : LockedEv → SysState
  | .attempt req f lat => (purchasePostgresLock req f lat st).2

/-- A locked execution: the state after a sequence of attempts. -/
def lockedRun (st : SysState) (es : List LockedEv) : SysState :=
  es.foldl lockedStep st

/-! ### Interleaved executions of the Cache-Gated strategy

The atomic unit on the Redis side is the Lua gate; the atomic unit on the
ledger side is the transaction (visible only at commit, rolled back
otherwise).  Between its gate and its ledger phase an attempt holds an
optimistic reservation, during which arbitrarily many other events may
run; `pending` records the requests of such in-flight attempts. -/

/-- Configuration of a gated execution: the shared state plus the requests
that have passed the gate but not finished their ledger phase. -/
structure GatedConfig where
  sys : SysState
  pending : List PurchaseRequest
deriving Repr

/-- One event of a gated execution: a request body that fails to bind, a
Redis `Eval` error, an attempt running the atomic Lua gate, or an in-flight
attempt (indexed into `pending`) running its whole ledger phase with a given
fault record. -/
inductive GatedEv where
  | invalid : GatedEv
  | gateErr : GatedEv
  | gate : PurchaseRequest → GatedEv
  | ledger : Nat → GatedFaults → Int → GatedEv

/-- Effect of one gated event.  An out-of-range `ledger` index is a
stutter. -/
def gatedStep (cfg : GatedConfig) : GatedEv → GatedConfig
  | .invalid => { cfg with sys := addFail (recordAttempt cfg.sys) }
  | .gateErr => { cfg with sys := addFail (recordAttempt cfg.sys) }
  | .gate req =>
      let st := recordAttempt cfg.sys
      let g := luaGate st.redis
      let st := { st with redis := g.2 }
      if g.1 < 0 then { cfg with sys := addFail st }
      else { sys := st, pending := cfg.pending ++ [req] }
  | .ledger i f lat =>
      match cfg.pending[i]? with
      | none => cfg
      | some req =>
          { sys := (gatedLedgerPhase req f lat cfg.sys).2
            pending := cfg.pending.eraseIdx i }

/-- A gated execution: the configuration after a sequence of events. -/
def gatedRun (cfg : GatedConfig) (es : List GatedEv) : GatedConfig :=
  es.foldl gatedStep cfg

/-! ### Interleaved executions of the Unprotected strategy

Each `PurchaseNaive` attempt issues its read, its update and its insert as
three separate statements with no isolation; the 5 ms sleep sits between
the stock check and the update.  A thread is a request plus a program
counter marking which of these statements it has reached. -/

/-- Program counter of one naive attempt: before the read, inside the
artificial delay (stock check passed), after the update, finished. -/
inductive NaivePC where
  | start : NaivePC
  | delaying : NaivePC
  | updated : NaivePC
  | finished : NaivePC
deriving DecidableEq, Repr

/-- One in-flight naive attempt. -/
structure NaiveThread where
  req : PurchaseRequest
  pc : NaivePC
deriving DecidableEq, Repr

/-- Configuration of a naive execution. -/
structure NaiveConfig where
  sys : SysState
  threads : List NaiveThread
deriving DecidableEq, Repr

/-- Thread `i` executes its next atomic statement: the read (plus entry
bookkeeping and the stock check on the value just read), the unconditional
`UPDATE` after the delay, or the order `INSERT` followed by the success
counters.  An out-of-range or finished thread is a stutter. -/
def naiveStep (cfg : NaiveConfig) (i : Nat) : NaiveConfig :=
  match cfg.threads[i]? with
  | none => cfg
  | some t =>
    let setPC : NaivePC → List NaiveThread := fun pc =>
      cfg.threads.set i { t with pc := pc }
    match t.pc with
    | .start =>
        let st := recordAttempt cfg.sys
        match selectQuantity t.req.productId st.products with
        | none => { sys := addFail st, threads := setPC .finished }
        | some quantity =>
          if quantity ≤ 0 then { sys := addFail st, threads := setPC .finished }
          else { sys := st, threads := setPC .delaying }
    | .delaying =>
        { sys := { cfg.sys with
                    products := updateDecrementQuantity t.req.productId cfg.sys.products }
          threads := setPC .updated }
    | .updated =>
        if productRowExists t.req.productId cfg.sys.products then
          { sys := addLatency 0 (addSuccess
              { cfg.sys with orders := cfg.sys.orders ++ [successOrder t.req] })
            threads := setPC .finished }
        else { sys := addFail cfg.sys, threads := setPC .finished }
    | .finished => cfg

/-- A naive execution under a schedule: at each step the scheduled thread
runs its next statement. -/
def naiveRun (cfg : NaiveConfig) (sched : List Nat) : NaiveConfig :=
  sched.foldl naiveStep cfg

/-- `n` concurrent naive attempts for product 1, user ids `0..n-1`, as fired
by `scripts/attack.go` and the dashboard. -/
def naiveThreads (n : Nat) : List NaiveThread :=
  (List.range n).map
    (fun (i : Nat) => { req := { userId := (i : Int), productId := 1 }, pc := .start })

/-- The schedule in which every attempt performs its read (all landing inside
the 5 ms delay window), then every attempt performs its update, then every
attempt inserts its order. -/
def naiveRaceSchedule (n : Nat) : List Nat :=
  List.range n ++ List.range n ++ List.range n

/-- Intermediate thread list reached while the race schedule sweeps over the
attempts: threads `0..i-1` have advanced to `pcDone`, threads `i..n-1` still
sit at `pcTodo`. -/
def mixedThreads (n i : Nat) (pcDone pcTodo : NaivePC) : List NaiveThread :=
  (List.range n).map
    (fun (j : Nat) => { req := { userId := (j : Int), productId := 1 }
                        pc := if j < i then pcDone else pcTodo })

/-! ### The load harness (`scripts/attack.go` and the dashboard `runBatch`) -/

/-- The dashboard's `runBatch` (`part_002` lines 309-316): slice the task
list into consecutive chunks of `batchSize` and await each chunk before
starting the next.  Each inner list is one concurrently-dispatched batch.
With `batchSize = 0` the source loop never dispatches anything and never
terminates; that degenerate case is modelled as dispatching nothing. -/
def runBatchChunks (batchSize : Nat) (tasks : List α) : List (List α) :=
  match tasks with
  | [] => []
  | t :: ts =>
    if batchSize = 0 then []
    else (t :: ts).take batchSize :: runBatchChunks batchSize ((t :: ts).drop batchSize)
termination_by tasks.length
decreasing_by
  simp only [List.length_drop, List.length_cons]
  omega

/-- `scripts/attack.go` `main` (lines 26-48): the loop launches one goroutine
per request immediately — "This loop runs INSTANTLY. It doesn't wait for the
previous one to finish." — and only then waits on the `WaitGroup`: every
request is dispatched in one single wave. -/
def attackWaves (totalRequests : Nat) : List (List Nat) :=
  [List.range totalRequests]

/-- Peak in-flight concurrency of a batched dispatch: the size of the largest
simultaneously-dispatched batch. -/
def peakConcurrency (waves : List (List α)) : Nat :=
  (waves.map List.length).foldr max 0

/-! ### Operation-level semantics of the whole API (used for the stats claims)

One `Op` per handler the server exposes; `applyOp` is its effect on the
observable state.  A failed `/sync-redis` read leaves the state unchanged. -/

/-- One API call. -/
inductive Op where
  | naive : PurchaseRequest → NaiveFaults → Int → Op
  | locked : PurchaseRequest → LockFaults → Int → Op
  | gated : PurchaseRequest → GatedFaults → Int → Op
  | reset : Op
  | syncRedis : Op
  | statsView : Op

/-- Effect of one API call on the observable state. -/
def applyOp (st : SysState) : Op → SysState
  | .naive req f lat => (purchaseNaive req f lat st).2
  | .locked req f lat => (purchasePostgresLock req f lat st).2
  | .gated req f lat => (purchaseRedisPostgres req f lat st).2
  | .reset => resetHandler st
  | .syncRedis => (syncRedisHandler st).getD st
  | .statsView => st

/-- The state after a sequence of API calls. -/
def runOps (st : SysState) (ops : List Op) : SysState :=
  ops.foldl applyOp st

/-! ## Helper lemmas -/

@[simp] theorem recordAttempt_products (st : SysState) : (recordAttempt st).products = st.products := rfl

@[simp] theorem recordAttempt_orders (st : SysState) : (recordAttempt st).orders = st.orders := rfl

@[simp] theorem recordAttempt_redis (st : SysState) : (recordAttempt st).redis = st.redis := rfl

@[simp] theorem addFail_products (st : SysState) : (addFail st).products = st.products := rfl

@[simp] theorem addFail_orders (st : SysState) : (addFail st).orders = st.orders := rfl

@[simp] theorem addFail_redis (st : SysState) : (addFail st).redis = st.redis := rfl

@[simp] theorem addSuccess_products (st : SysState) : (addSuccess st).products = st.products := rfl

@[simp] theorem addSuccess_orders (st : SysState) : (addSuccess st).orders = st.orders := rfl

@[simp] theorem addSuccess_redis (st : SysState) : (addSuccess st).redis = st.redis := rfl

@[simp] theorem addLatency_products (lat : Int) (st : SysState) : (addLatency lat st).products = st.products := rfl

@[simp] theorem addLatency_orders (lat : Int) (st : SysState) : (addLatency lat st).orders = st.orders := rfl

@[simp] theorem addLatency_redis (lat : Int) (st : SysState) : (addLatency lat st).redis = st.redis := rfl

@[simp] theorem compensate_products (st : SysState) : (compensate st).products = st.products := rfl

@[simp] theorem compensate_orders (st : SysState) : (compensate st).orders = st.orders := rfl

@[simp] theorem compensate_redis (st : SysState) : (compensate st).redis = redisIncr st.redis := rfl

@[simp] theorem recordAttempt_oversell (st : SysState) :
    (recordAttempt st).stats.oversellCount = st.stats.oversellCount := rfl

@[simp] theorem addFail_oversell (st : SysState) :
    (addFail st).stats.oversellCount = st.stats.oversellCount := rfl

@[simp] theorem addSuccess_oversell (st : SysState) :
    (addSuccess st).stats.oversellCount = st.stats.oversellCount := rfl

@[simp] theorem addLatency_oversell (lat : Int) (st : SysState) :
    (addLatency lat st).stats.oversellCount = st.stats.oversellCount := rfl

@[simp] theorem compensate_stats (st : SysState) : (compensate st).stats = st.stats := rfl

/-- `luaGate` never writes when it reports the sentinel. -/
theorem luaGate_sentinel_no_write (r : Option Int) (h : (luaGate r).1 < 0) :
    (luaGate r).2 = r := by
  cases r with
  | none => rfl
  | some v =>
    by_cases hv : v ≤ 0
    · simp [luaGate, hv]
    · simp [luaGate, hv] at h
      omega

/-- A `PurchasePostgresLock` attempt either leaves both tables untouched, or
found a strictly positive quantity and commits exactly one decrement and one
order row. -/
theorem purchasePostgresLock_cases (req : PurchaseRequest) (f : LockFaults) (lat : Int)
    (st : SysState) :
    ((purchasePostgresLock req f lat st).2.products = st.products ∧
     (purchasePostgresLock req f lat st).2.orders = st.orders) ∨
    (∃ q, selectQuantity req.productId st.products = some q ∧ 0 < q ∧
      (purchasePostgresLock req f lat st).2.products = updateDecrementQuantity req.productId st.products ∧
      (purchasePostgresLock req f lat st).2.orders = st.orders ++ [successOrder req]) := by
  unfold purchasePostgresLock
  by_cases h1 : f.bindFails <;> simp only [h1, if_true, if_false, Bool.false_eq_true]
  · left; exact ⟨rfl, rfl⟩
  by_cases h2 : f.beginFails <;> simp only [h2, if_true, if_false, Bool.false_eq_true]
  · left; exact ⟨rfl, rfl⟩
  by_cases h3 : f.lockReadFails <;> simp only [h3, if_true, if_false, Bool.false_eq_true]
  · left; exact ⟨rfl, rfl⟩
  rcases hq : selectQuantity req.productId (recordAttempt st).products with _ | q
  · left; exact ⟨rfl, rfl⟩
  by_cases h4 : q ≤ 0 <;> simp only [h4, if_true, if_false]
  · left; exact ⟨rfl, rfl⟩
  by_cases h5 : f.updateFails <;> simp only [h5, if_true, if_false, Bool.false_eq_true]
  · left; exact ⟨rfl, rfl⟩
  by_cases h6 : f.insertFails <;> simp only [h6, if_true, if_false, Bool.false_eq_true]
  · left; exact ⟨rfl, rfl⟩
  by_cases h7 : f.commitFails <;> simp only [h7, if_true, if_false, Bool.false_eq_true]
  · left; exact ⟨rfl, rfl⟩
  right
  refine ⟨q, ?_, by omega, rfl, rfl⟩
  simpa using hq

/-- A `gatedLedgerPhase` either fails — tables untouched, compensating
`Incr` issued — or the product row exists and it commits exactly one
decrement and one order row with no cache write. -/
theorem gatedLedgerPhase_cases (req : PurchaseRequest) (f : GatedFaults) (lat : Int)
    (st : SysState) :
    ((gatedLedgerPhase req f lat st).2.products = st.products ∧
     (gatedLedgerPhase req f lat st).2.orders = st.orders ∧
     (gatedLedgerPhase req f lat st).2.redis = redisIncr st.redis ∧
     (gatedLedgerPhase req f lat st).1 ≠ .ok) ∨
    (productRowExists req.productId st.products = true ∧
      (gatedLedgerPhase req f lat st).2.products = updateDecrementQuantity req.productId st.products ∧
      (gatedLedgerPhase req f lat st).2.orders = st.orders ++ [successOrder req] ∧
      (gatedLedgerPhase req f lat st).2.redis = st.redis) := by
  unfold gatedLedgerPhase
  by_cases h1 : f.beginFails <;> simp only [h1, if_true, if_false, Bool.false_eq_true]
  · left; exact ⟨rfl, rfl, rfl, by simp⟩
  by_cases h2 : f.updateFails <;> simp only [h2, if_true, if_false, Bool.false_eq_true]
  · left; exact ⟨rfl, rfl, rfl, by simp⟩
  by_cases h3 : f.insertFails <;> simp only [h3, if_true, if_false, Bool.false_eq_true]
  · left; exact ⟨rfl, rfl, rfl, by simp⟩
  by_cases h4 : productRowExists req.productId st.products <;>
    simp only [h4, if_true, if_false, Bool.false_eq_true]
  · by_cases h5 : f.commitFails <;> simp only [h5, if_true, if_false, Bool.false_eq_true]
    · left; exact ⟨rfl, rfl, rfl, by simp⟩
    · right; exact ⟨by simp [h4], rfl, rfl, rfl⟩
  · left; exact ⟨rfl, rfl, rfl, by simp⟩

/-- Reading a one-row products table. -/
theorem selectQuantity_singleton (pid a q : Int) :
    selectQuantity pid [(a, q)] = if a == pid then some q else none := by
  rcases h : a == pid with _ | _ <;> simp [selectQuantity, List.find?, h]

/-- Updating a one-row products table. -/
theorem updateDecrementQuantity_singleton (pid a q : Int) :
    updateDecrementQuantity pid [(a, q)] =
      [if a == pid then (a, q - 1) else (a, q)] := rfl

/-- Invariant of locked executions: the products table is the single seeded
row whose quantity is the initial capacity minus the number of order rows,
and there are at most 100 order rows. -/
def LockedInv (st : SysState) : Prop :=
  st.products = [(1, 100 - (st.orders.length : Int))] ∧ st.orders.length ≤ 100

/-- One locked attempt preserves `LockedInv`. -/
theorem lockedStep_inv (st : SysState) (e : LockedEv) (h : LockedInv st) :
    LockedInv (lockedStep st e) := by
  obtain ⟨hp, ho⟩ := h
  rcases e with ⟨req, f, lat⟩
  show LockedInv (purchasePostgresLock req f lat st).2
  rcases purchasePostgresLock_cases req f lat st with ⟨h1, h2⟩ | ⟨q, hq, hpos, h1, h2⟩
  · exact ⟨by rw [h1, h2, hp], by rw [h2]; exact ho⟩
  · rw [hp, selectQuantity_singleton] at hq
    by_cases hpid : ((1 : Int) == req.productId) = true
    · rw [if_pos hpid, Option.some.injEq] at hq
      have hpid1 : req.productId = 1 := (beq_iff_eq.mp hpid).symm
      have hlt : st.orders.length < 100 := by omega
      constructor
      · rw [h1, h2, hp, updateDecrementQuantity_singleton, hpid1]
        simp only [List.length_append, List.length_singleton]
        have harith : (100 : Int) - (st.orders.length : Int) - 1 =
            100 - ((st.orders.length + 1 : Nat) : Int) := by push_cast; ring
        rw [if_pos (by simp), harith]
      · rw [h2]
        simp only [List.length_append, List.length_singleton]
        omega
    · rw [if_neg hpid] at hq
      exact absurd hq (by simp)

/-- `LockedInv` holds along every locked execution. -/
theorem lockedRun_inv (es : List LockedEv) :
    ∀ st : SysState, LockedInv st → LockedInv (lockedRun st es) := by
  induction es with
  | nil => intro st h; exact h
  | cons e es ih =>
    intro st h
    exact ih (lockedStep st e) (lockedStep_inv st e h)

/-- Invariant of gated executions: the Redis counter is present and
non-negative, counter + committed orders + in-flight reservations add up to
the initial capacity, and the products table is the single seeded row whose
quantity is the capacity minus the committed orders. -/
def GatedInv (cfg : GatedConfig) : Prop :=
  ∃ r : Int, cfg.sys.redis = some r ∧ 0 ≤ r ∧
    r + (cfg.sys.orders.length : Int) + (cfg.pending.length : Int) = 100 ∧
    cfg.sys.products = [(1, 100 - (cfg.sys.orders.length : Int))]

/-- One gated event preserves `GatedInv`. -/
theorem gatedStep_inv (cfg : GatedConfig) (e : GatedEv) (h : GatedInv cfg) :
    GatedInv (gatedStep cfg e) := by
  obtain ⟨r, hr, hr0, hsum, hp⟩ := h
  cases e with
  | invalid =>
    simp only [gatedStep]
    exact ⟨r, by simpa using hr, hr0, by simpa using hsum, by simpa using hp⟩
  | gateErr =>
    simp only [gatedStep]
    exact ⟨r, by simpa using hr, hr0, by simpa using hsum, by simpa using hp⟩
  | gate req =>
    have hred : (recordAttempt cfg.sys).redis = some r := by simpa using hr
    by_cases hle : r ≤ 0
    · have hg : luaGate (recordAttempt cfg.sys).redis = (-1, some r) := by
        rw [hred]; simp [luaGate, hle]
      simp only [gatedStep, hg]
      rw [if_pos (by norm_num)]
      exact ⟨r, by simp [hr], hr0, by simpa using hsum, by simpa using hp⟩
    · have hg : luaGate (recordAttempt cfg.sys).redis = (r - 1, some (r - 1)) := by
        rw [hred]; simp [luaGate, hle]
      simp only [gatedStep, hg]
      rw [if_neg (by simp; omega)]
      refine ⟨r - 1, rfl, by omega, ?_, by simpa using hp⟩
      simp only [recordAttempt_orders, List.length_append, List.length_singleton]
      push_cast
      omega
  | ledger i f lat =>
    rcases hgi : cfg.pending[i]? with _ | req
    · simp only [gatedStep, hgi]
      exact ⟨r, hr, hr0, hsum, hp⟩
    · simp only [gatedStep, hgi]
      have hlt : i < cfg.pending.length := by
        rcases List.getElem?_eq_some_iff.mp hgi with ⟨hw, _⟩
        exact hw
      have hlen : ((cfg.pending.eraseIdx i).length : Int) = (cfg.pending.length : Int) - 1 := by
        rw [List.length_eraseIdx_of_lt hlt]
        omega
      rcases gatedLedgerPhase_cases req f lat cfg.sys with ⟨p1, p2, p3, _⟩ | ⟨hex, p1, p2, p3⟩
      · refine ⟨r + 1, ?_, by omega, ?_, ?_⟩
        · rw [p3, hr]; rfl
        · rw [p2, hlen]; omega
        · rw [p1, p2]; exact hp
      · have hpid : req.productId = 1 := by
          rw [hp] at hex
          simp only [productRowExists, List.any_cons, List.any_nil, Bool.or_false] at hex
          exact (beq_iff_eq.mp hex).symm
        refine ⟨r, by rw [p3]; exact hr, hr0, ?_, ?_⟩
        · rw [p2, hlen]
          simp only [List.length_append, List.length_singleton]
          push_cast
          omega
        · rw [p1, p2, hp, updateDecrementQuantity_singleton, hpid]
          simp only [List.length_append, List.length_singleton]
          have harith : (100 : Int) - (cfg.sys.orders.length : Int) - 1 =
              100 - ((cfg.sys.orders.length + 1 : Nat) : Int) := by push_cast; ring
          rw [if_pos (by simp), harith]

/-- `GatedInv` holds along every gated execution. -/
theorem gatedRun_inv (es : List GatedEv) :
    ∀ cfg : GatedConfig, GatedInv cfg → GatedInv (gatedRun cfg es) := by
  induction es with
  | nil => intro cfg h; exact h
  | cons e es ih =>
    intro cfg h
    exact ih (gatedStep cfg e) (gatedStep_inv cfg e h)

/-- When the gate does not report the sentinel, the key held a strictly
positive value and was decremented. -/
theorem luaGate_win (r : Option Int) (h : ¬ (luaGate r).1 < 0) :
    ∃ v, r = some v ∧ 0 < v ∧ luaGate r = (v - 1, some (v - 1)) := by
  cases r with
  | none => simp [luaGate] at h
  | some v =>
    by_cases hv : v ≤ 0
    · simp [luaGate, hv] at h
    · exact ⟨v, rfl, by omega, by simp [luaGate, hv]⟩

/-- Under any injected ledger fault, the ledger phase compensates the cache,
reports failure, and leaves both tables untouched. -/
theorem gatedLedgerPhase_fault (req : PurchaseRequest) (f : GatedFaults) (lat : Int)
    (st : SysState)
    (hfault : f.beginFails = true ∨ f.updateFails = true ∨ f.insertFails = true ∨
      f.commitFails = true) :
    (gatedLedgerPhase req f lat st).2.redis = redisIncr st.redis ∧
    (gatedLedgerPhase req f lat st).1 ≠ Outcome.ok ∧
    (gatedLedgerPhase req f lat st).2.products = st.products ∧
    (gatedLedgerPhase req f lat st).2.orders = st.orders := by
  unfold gatedLedgerPhase
  by_cases h1 : f.beginFails <;> simp only [h1, if_true, if_false, Bool.false_eq_true]
  · exact ⟨rfl, by simp, rfl, rfl⟩
  by_cases h2 : f.updateFails <;> simp only [h2, if_true, if_false, Bool.false_eq_true]
  · exact ⟨rfl, by simp, rfl, rfl⟩
  by_cases h3 : f.insertFails <;> simp only [h3, if_true, if_false, Bool.false_eq_true]
  · exact ⟨rfl, by simp, rfl, rfl⟩
  by_cases h4 : productRowExists req.productId st.products <;>
    simp only [h4, if_true, if_false, Bool.false_eq_true]
  · have h5 : f.commitFails = true := by tauto
    simp only [h5, if_true]
    exact ⟨rfl, by simp, rfl, rfl⟩
  · exact ⟨rfl, by simp, rfl, rfl⟩

/-- Under any injected infrastructure fault, a locked attempt leaves both
tables untouched and reports failure (the transaction rolls back). -/
theorem purchasePostgresLock_fault (req : PurchaseRequest) (f : LockFaults) (lat : Int)
    (st : SysState)
    (hfault : f.beginFails = true ∨ f.lockReadFails = true ∨ f.updateFails = true ∨
      f.insertFails = true ∨ f.commitFails = true) :
    (purchasePostgresLock req f lat st).2.products = st.products ∧
    (purchasePostgresLock req f lat st).2.orders = st.orders ∧
    (purchasePostgresLock req f lat st).1 ≠ Outcome.ok := by
  unfold purchasePostgresLock
  by_cases h1 : f.bindFails <;> simp only [h1, if_true, if_false, Bool.false_eq_true]
  · exact ⟨rfl, rfl, by simp⟩
  by_cases h2 : f.beginFails <;> simp only [h2, if_true, if_false, Bool.false_eq_true]
  · exact ⟨rfl, rfl, by simp⟩
  by_cases h3 : f.lockReadFails <;> simp only [h3, if_true, if_false, Bool.false_eq_true]
  · exact ⟨rfl, rfl, by simp⟩
  rcases hq : selectQuantity req.productId (recordAttempt st).products with _ | q
  · exact ⟨rfl, rfl, by simp⟩
  by_cases h4 : q ≤ 0 <;> simp only [h4, if_true, if_false]
  · exact ⟨rfl, rfl, by simp⟩
  by_cases h5 : f.updateFails <;> simp only [h5, if_true, if_false, Bool.false_eq_true]
  · exact ⟨rfl, rfl, by simp⟩
  by_cases h6 : f.insertFails <;> simp only [h6, if_true, if_false, Bool.false_eq_true]
  · exact ⟨rfl, rfl, by simp⟩
  have h7 : f.commitFails = true := by tauto
  simp only [h7, if_true]
  exact ⟨rfl, rfl, by simp⟩

/-- Under any injected ledger fault, a gated attempt leaves both tables and
the cache value unchanged (the gate's decrement, if any, is undone by the
compensating increment) and reports failure. -/
theorem purchaseRedisPostgres_fault (req : PurchaseRequest) (f : GatedFaults) (lat : Int)
    (st : SysState)
    (hfault : f.beginFails = true ∨ f.updateFails = true ∨ f.insertFails = true ∨
      f.commitFails = true) :
    (purchaseRedisPostgres req f lat st).2.products = st.products ∧
    (purchaseRedisPostgres req f lat st).2.orders = st.orders ∧
    (purchaseRedisPostgres req f lat st).2.redis = st.redis ∧
    (purchaseRedisPostgres req f lat st).1 ≠ Outcome.ok := by
  unfold purchaseRedisPostgres
  by_cases h1 : f.bindFails <;> simp only [h1, if_true, if_false, Bool.false_eq_true]
  · exact ⟨rfl, rfl, rfl, by simp⟩
  by_cases h2 : f.redisEvalFails <;> simp only [h2, if_true, if_false, Bool.false_eq_true]
  · exact ⟨rfl, rfl, rfl, by simp⟩
  by_cases h3 : (luaGate (recordAttempt st).redis).1 < 0
  · simp only [if_pos h3]
    exact ⟨rfl, rfl, luaGate_sentinel_no_write _ h3, by simp⟩
  · simp only [if_neg h3]
    obtain ⟨v, hv, hvpos, hg⟩ := luaGate_win _ h3
    obtain ⟨q1, q2, q3, q4⟩ := gatedLedgerPhase_fault req f lat
      { recordAttempt st with redis := (luaGate (recordAttempt st).redis).2 } hfault
    refine ⟨by rw [q3]; rfl, by rw [q4]; rfl, ?_, q2⟩
    rw [q1]
    show redisIncr (luaGate (recordAttempt st).redis).2 = st.redis
    rw [hg]
    simp only [redisIncr]
    rw [recordAttempt_redis] at hv
    rw [hv]
    congr 1
    omega

/-- Under an injected read or update fault, a naive attempt leaves both
tables untouched and reports failure. -/
theorem purchaseNaive_fault_read_update (req : PurchaseRequest) (f : NaiveFaults) (lat : Int)
    (st : SysState) (hfault : f.readFails = true ∨ f.updateFails = true) :
    (purchaseNaive req f lat st).2.products = st.products ∧
    (purchaseNaive req f lat st).2.orders = st.orders ∧
    (purchaseNaive req f lat st).1 ≠ Outcome.ok := by
  unfold purchaseNaive
  by_cases h1 : f.bindFails <;> simp only [h1, if_true, if_false, Bool.false_eq_true]
  · exact ⟨rfl, rfl, by simp⟩
  by_cases h2 : f.readFails <;> simp only [h2, if_true, if_false, Bool.false_eq_true]
  · exact ⟨rfl, rfl, by simp⟩
  have h3 : f.updateFails = true := by tauto
  rcases hq : selectQuantity req.productId (recordAttempt st).products with _ | q
  · exact ⟨rfl, rfl, by simp⟩
  by_cases h4 : q ≤ 0 <;> simp only [h4, if_true, if_false]
  · exact ⟨rfl, rfl, by simp⟩
  simp only [h3, if_true]
  exact ⟨rfl, rfl, by simp⟩

/-- Under an injected order-insert fault, a naive attempt writes no order
row and reports failure (the quantity update, however, is not rolled
back). -/
theorem purchaseNaive_fault_insert (req : PurchaseRequest) (f : NaiveFaults) (lat : Int)
    (st : SysState) (hfault : f.insertFails = true) :
    (purchaseNaive req f lat st).2.orders = st.orders ∧
    (purchaseNaive req f lat st).1 ≠ Outcome.ok := by
  unfold purchaseNaive
  by_cases h1 : f.bindFails <;> simp only [h1, if_true, if_false, Bool.false_eq_true]
  · exact ⟨rfl, by simp⟩
  by_cases h2 : f.readFails <;> simp only [h2, if_true, if_false, Bool.false_eq_true]
  · exact ⟨rfl, by simp⟩
  rcases hq : selectQuantity req.productId (recordAttempt st).products with _ | q
  · exact ⟨rfl, by simp⟩
  by_cases h4 : q ≤ 0 <;> simp only [h4, if_true, if_false]
  · exact ⟨rfl, by simp⟩
  by_cases h5 : f.updateFails <;> simp only [h5, if_true, if_false, Bool.false_eq_true]
  · exact ⟨rfl, by simp⟩
  simp only [hfault, if_true]
  exact ⟨rfl, by simp⟩

/-! ## Claim theorems -/

/-- C1: under the Pessimistic-Locked (`PurchasePostgresLock`) and Cache-Gated
(`PurchaseRedisPostgres`) strategies, every execution from the reset state
(capacity 100), at every observable commit point, satisfies
`Product.quantity = initialCapacity − successfulOrders`,
`successfulOrders ≤ initialCapacity`, and `Product.quantity ≥ 0`.
Executions are arbitrary interleavings of attempts (with arbitrary requests
and injected faults); the state after any event sequence is an arbitrary
observable commit point, since the event lists range over all prefixes. -/
theorem c1_locked_gated_invariants (les : List LockedEv) (ges : List GatedEv) :
    (selectQuantity 1 (lockedRun initialState les).products =
        some (100 - ((lockedRun initialState les).orders.length : Int)) ∧
      (lockedRun initialState les).orders.length ≤ 100 ∧
      0 ≤ (100 : Int) - ((lockedRun initialState les).orders.length : Int)) ∧
    (selectQuantity 1 (gatedRun ⟨initialState, []⟩ ges).sys.products =
        some (100 - ((gatedRun ⟨initialState, []⟩ ges).sys.orders.length : Int)) ∧
      (gatedRun ⟨initialState, []⟩ ges).sys.orders.length ≤ 100 ∧
      0 ≤ (100 : Int) - ((gatedRun ⟨initialState, []⟩ ges).sys.orders.length : Int)) := by
  have hL : LockedInv (lockedRun initialState les) :=
    lockedRun_inv les initialState ⟨by simp [initialState, LockedInv], by simp [initialState]⟩
  have hG : GatedInv (gatedRun ⟨initialState, []⟩ ges) :=
    gatedRun_inv ges ⟨initialState, []⟩
      ⟨100, rfl, by norm_num, by simp [initialState], by simp [initialState]⟩
  obtain ⟨hp, ho⟩ := hL
  obtain ⟨r, hr, hr0, hsum, hgp⟩ := hG
  have hgo : (gatedRun ⟨initialState, []⟩ ges).sys.orders.length ≤ 100 := by
    have hpend : (0 : Int) ≤ ((gatedRun ⟨initialState, []⟩ ges).pending.length : Int) := by
      positivity
    omega
  refine ⟨⟨?_, ho, by omega⟩, ?_, hgo, by omega⟩
  · rw [hp, selectQuantity_singleton]
    simp
  · rw [hgp, selectQuantity_singleton]
    simp

/-- C3: the Cache-Gated strategy's gate is the single atomic Lua operation
`luaGate`: it decrements the cached stock if and only if the value is
present and `> 0` (returning the new value), returns the negative sentinel
without mutating anything when the value is absent or `≤ 0`, and on the
sentinel the attempt fails with `Out of stock!` while the ledger — products
and orders — is never touched (no transaction is opened: control returns
before `DB.Begin`). -/
theorem c3_cache_gate_semantics :
    (∀ r : Option Int, (luaGate r).1 < 0 ↔ r = Option.none ∨ ∃ v, r = some v ∧ v ≤ 0) ∧
    (∀ r : Option Int, (luaGate r).1 < 0 → (luaGate r).2 = r) ∧
    (∀ v : Int, 0 < v → luaGate (some v) = (v - 1, some (v - 1)) ∧ 0 ≤ v - 1) ∧
    (∀ (req : PurchaseRequest) (f : GatedFaults) (lat : Int) (st : SysState),
      f.bindFails = false → f.redisEvalFails = false → (luaGate st.redis).1 < 0 →
      (purchaseRedisPostgres req f lat st).1 = Outcome.badRequest "Out of stock!" ∧
      (purchaseRedisPostgres req f lat st).2.products = st.products ∧
      (purchaseRedisPostgres req f lat st).2.orders = st.orders ∧
      (purchaseRedisPostgres req f lat st).2.redis = st.redis) := by
  refine ⟨?_, fun r h => luaGate_sentinel_no_write r h, ?_, ?_⟩
  · intro r
    cases r with
    | none => simp [luaGate]
    | some v =>
      by_cases hv : v ≤ 0
      · simp [luaGate, hv]
      · simp only [luaGate, hv, if_false]
        constructor
        · intro h; omega
        · rintro (h | ⟨w, hw, hw0⟩)
          · exact absurd h (by simp)
          · rw [Option.some.injEq] at hw
            omega
  · intro v hv
    refine ⟨by simp [luaGate]; omega, by omega⟩
  · intro req f lat st hb he hneg
    unfold purchaseRedisPostgres
    simp only [hb, he, Bool.false_eq_true, if_false]
    have hg : (luaGate (recordAttempt st).redis).1 < 0 := by
      rw [recordAttempt_redis]; exact hneg
    simp only [if_pos hg]
    refine ⟨by simp, by simp, by simp, ?_⟩
    show (luaGate (recordAttempt st).redis).2 = st.redis
    rw [luaGate_sentinel_no_write _ hg, recordAttempt_redis]

/-- Witness for C3's conditional part: with the cached stock at 0, a gated
attempt is rejected by the gate and leaves every table and the cache
unchanged. -/
theorem c3_cache_gate_semantics_witness :
    (luaGate (Option.some 0)).1 < 0 ∧
    (purchaseRedisPostgres ⟨1, 1⟩ GatedFaults.none 0
        { initialState with redis := some 0 }).1 = Outcome.badRequest "Out of stock!" ∧
    (purchaseRedisPostgres ⟨1, 1⟩ GatedFaults.none 0
        { initialState with redis := some 0 }).2.products = initialState.products ∧
    (purchaseRedisPostgres ⟨1, 1⟩ GatedFaults.none 0
        { initialState with redis := some 0 }).2.redis = some 0 := by
  have h := c3_cache_gate_semantics.2.2.2 ⟨1, 1⟩ GatedFaults.none 0
    { initialState with redis := some 0 } rfl rfl (by decide)
  exact ⟨by decide, h.1, h.2.1, h.2.2.2⟩

/-- C4: in the Cache-Gated strategy, if any ledger step after a successful
cache gate fails (transaction begin, quantity decrement, order insert, or
commit), the compensating atomic increment restores the cache counter to
its pre-attempt value and the attempt is reported as failed, never as
successful. -/
theorem c4_gated_compensation (req : PurchaseRequest) (f : GatedFaults) (lat : Int)
    (st : SysState) (v : Int)
    (hr : st.redis = some v) (_hv : 0 < v)
    (hfault : f.beginFails = true ∨ f.updateFails = true ∨ f.insertFails = true ∨
      f.commitFails = true) :
    (purchaseRedisPostgres req f lat st).2.redis = some v ∧
    (purchaseRedisPostgres req f lat st).1 ≠ Outcome.ok := by
  obtain ⟨_, _, h3, h4⟩ := purchaseRedisPostgres_fault req f lat st hfault
  exact ⟨by rw [h3, hr], h4⟩

/-- Witness for C4: a commit fault on the fault-free-gated reset state
leaves the cache back at 100 and the attempt failed. -/
theorem c4_gated_compensation_witness :
    (purchaseRedisPostgres ⟨1, 1⟩ ⟨false, false, false, false, false, true⟩ 0
        initialState).2.redis = some 100 ∧
    (purchaseRedisPostgres ⟨1, 1⟩ ⟨false, false, false, false, false, true⟩ 0
        initialState).1 ≠ Outcome.ok :=
  c4_gated_compensation ⟨1, 1⟩ ⟨false, false, false, false, false, true⟩ 0 initialState 100
    rfl (by norm_num) (Or.inr (Or.inr (Or.inr rfl)))

/-- C5 (amended): infrastructure faults abort the attempt with no partial
state change for the Pessimistic-Locked strategy (rollback) and for the
Cache-Gated strategy (rollback plus cache compensation); for the
Unprotected strategy this holds for faults at the read or at the quantity
update, and no fault ever leaves a partial order row, but a fault at the
order insert strikes after the quantity decrement has already been
committed, so the decrement survives the failed attempt. -/
theorem c5_fault_no_partial_state :
    (∀ (req : PurchaseRequest) (f : LockFaults) (lat : Int) (st : SysState),
      (f.beginFails = true ∨ f.lockReadFails = true ∨ f.updateFails = true ∨
        f.insertFails = true ∨ f.commitFails = true) →
      (purchasePostgresLock req f lat st).2.products = st.products ∧
      (purchasePostgresLock req f lat st).2.orders = st.orders ∧
      (purchasePostgresLock req f lat st).1 ≠ Outcome.ok) ∧
    (∀ (req : PurchaseRequest) (f : GatedFaults) (lat : Int) (st : SysState),
      (f.beginFails = true ∨ f.updateFails = true ∨ f.insertFails = true ∨
        f.commitFails = true) →
      (purchaseRedisPostgres req f lat st).2.products = st.products ∧
      (purchaseRedisPostgres req f lat st).2.orders = st.orders ∧
      (purchaseRedisPostgres req f lat st).2.redis = st.redis ∧
      (purchaseRedisPostgres req f lat st).1 ≠ Outcome.ok) ∧
    (∀ (req : PurchaseRequest) (f : NaiveFaults) (lat : Int) (st : SysState),
      (f.readFails = true ∨ f.updateFails = true) →
      (purchaseNaive req f lat st).2.products = st.products ∧
      (purchaseNaive req f lat st).2.orders = st.orders ∧
      (purchaseNaive req f lat st).1 ≠ Outcome.ok) ∧
    (∀ (req : PurchaseRequest) (f : NaiveFaults) (lat : Int) (st : SysState),
      f.insertFails = true →
      (purchaseNaive req f lat st).2.orders = st.orders ∧
      (purchaseNaive req f lat st).1 ≠ Outcome.ok) :=
  ⟨purchasePostgresLock_fault, purchaseRedisPostgres_fault,
    purchaseNaive_fault_read_update, purchaseNaive_fault_insert⟩

/-- Witness for C5 (amended), one concrete instantiation per strategy:
a commit fault on a locked attempt, an update fault on a gated attempt, a
read fault and an insert fault on naive attempts, all from the reset
state. -/
theorem c5_fault_no_partial_state_witness :
    ((purchasePostgresLock ⟨1, 1⟩ ⟨false, false, false, false, false, true⟩ 0
        initialState).2.products = initialState.products ∧
      (purchasePostgresLock ⟨1, 1⟩ ⟨false, false, false, false, false, true⟩ 0
        initialState).2.orders = initialState.orders ∧
      (purchasePostgresLock ⟨1, 1⟩ ⟨false, false, false, false, false, true⟩ 0
        initialState).1 ≠ Outcome.ok) ∧
    ((purchaseRedisPostgres ⟨1, 1⟩ ⟨false, false, false, true, false, false⟩ 0
        initialState).2.products = initialState.products ∧
      (purchaseRedisPostgres ⟨1, 1⟩ ⟨false, false, false, true, false, false⟩ 0
        initialState).2.orders = initialState.orders ∧
      (purchaseRedisPostgres ⟨1, 1⟩ ⟨false, false, false, true, false, false⟩ 0
        initialState).2.redis = initialState.redis ∧
      (purchaseRedisPostgres ⟨1, 1⟩ ⟨false, false, false, true, false, false⟩ 0
        initialState).1 ≠ Outcome.ok) ∧
    ((purchaseNaive ⟨1, 1⟩ ⟨false, true, false, false⟩ 0 initialState).2.products =
        initialState.products ∧
      (purchaseNaive ⟨1, 1⟩ ⟨false, true, false, false⟩ 0 initialState).2.orders =
        initialState.orders ∧
      (purchaseNaive ⟨1, 1⟩ ⟨false, true, false, false⟩ 0 initialState).1 ≠ Outcome.ok) ∧
    ((purchaseNaive ⟨1, 1⟩ ⟨false, false, false, true⟩ 0 initialState).2.orders =
        initialState.orders ∧
      (purchaseNaive ⟨1, 1⟩ ⟨false, false, false, true⟩ 0 initialState).1 ≠ Outcome.ok) :=
  ⟨c5_fault_no_partial_state.1 ⟨1, 1⟩ ⟨false, false, false, false, false, true⟩ 0 initialState
      (Or.inr (Or.inr (Or.inr (Or.inr rfl)))),
    c5_fault_no_partial_state.2.1 ⟨1, 1⟩ ⟨false, false, false, true, false, false⟩ 0 initialState
      (Or.inr (Or.inl rfl)),
    c5_fault_no_partial_state.2.2.1 ⟨1, 1⟩ ⟨false, true, false, false⟩ 0 initialState
      (Or.inl rfl),
    c5_fault_no_partial_state.2.2.2 ⟨1, 1⟩ ⟨false, false, false, true⟩ 0 initialState rfl⟩

/-- C5 counterexample to the claim as stated: for the Unprotected strategy,
an infrastructure fault at the order insert (after the quantity update
already executed as a separate non-transactional statement) reports
`Order failed` yet leaves `Product.quantity` at 99 instead of the
pre-attempt 100 — a partial state change. -/
theorem c5_counterexample :
    (purchaseNaive ⟨1, 1⟩ ⟨false, false, false, true⟩ 0 initialState).1 =
      Outcome.serverError "Order failed" ∧
    selectQuantity 1 initialState.products = some 100 ∧
    selectQuantity 1
      (purchaseNaive ⟨1, 1⟩ ⟨false, false, false, true⟩ 0 initialState).2.products =
        some 99 := by
  refine ⟨?_, ?_, ?_⟩ <;> decide

/-- C6 counterexample to the claim as stated: the gate's key list is the
hard-coded `product:1:stock`, not the requested product's key; a gated
purchase of product 2 (present with quantity 0) wins the gate on product 1's
cache entry, decrements it to 99, and drives product 2's ledger quantity to
−1 while product 1's ledger quantity stays 100. -/
theorem c6_counterexample :
    gateLuaKeys ≠ [productStockKey 2] ∧
    compensateKey ≠ productStockKey 2 ∧
    (purchaseRedisPostgres ⟨7, 2⟩ GatedFaults.none 0
        { products := [(1, 100), (2, 0)], orders := [], redis := some 100,
          stats := resetStatsCounters }).1 = Outcome.ok ∧
    (purchaseRedisPostgres ⟨7, 2⟩ GatedFaults.none 0
        { products := [(1, 100), (2, 0)], orders := [], redis := some 100,
          stats := resetStatsCounters }).2.redis = some 99 ∧
    selectQuantity 2 (purchaseRedisPostgres ⟨7, 2⟩ GatedFaults.none 0
        { products := [(1, 100), (2, 0)], orders := [], redis := some 100,
          stats := resetStatsCounters }).2.products = some (-1) ∧
    selectQuantity 1 (purchaseRedisPostgres ⟨7, 2⟩ GatedFaults.none 0
        { products := [(1, 100), (2, 0)], orders := [], redis := some 100,
          stats := resetStatsCounters }).2.products = some 100 := by
  refine ⟨?_, ?_, ?_, ?_, ?_, ?_⟩ <;> decide

/-- C6 (amended): the gate operation and its compensation always read and
decrement the fixed cache key `product:1:stock`, whatever product the
request names; this key corresponds to the product whose ledger quantity the
strategy later decrements when (and only in that case is the claim's
correspondence realized) the requested product id is 1. -/
theorem c6_fixed_gate_key (req : PurchaseRequest) :
    gateLuaKeys = [productStockKey 1] ∧
    compensateKey = productStockKey 1 ∧
    (req.productId = 1 → gateLuaKeys = [productStockKey req.productId]) := by
  refine ⟨by decide, by decide, ?_⟩
  intro h
  rw [h]
  decide

/-- Witness for C6 (amended) at a request for product 1. -/
theorem c6_fixed_gate_key_witness :
    gateLuaKeys = [productStockKey 1] ∧
    gateLuaKeys = [productStockKey (PurchaseRequest.mk 5 1).productId] :=
  ⟨(c6_fixed_gate_key ⟨5, 1⟩).1, (c6_fixed_gate_key ⟨5, 1⟩).2.2 rfl⟩

/-- Splitting one batch off the front of the dashboard's chunked dispatch. -/
theorem runBatchChunks_cons {α : Type} (batchSize : Nat) (hc : 0 < batchSize)
    (t : α) (ts : List α) :
    runBatchChunks batchSize (t :: ts) =
      (t :: ts).take batchSize :: runBatchChunks batchSize ((t :: ts).drop batchSize) := by
  rw [runBatchChunks]
  exact if_neg (by omega)

/-- Every task of a chunked dispatch is dispatched, in order, exactly once. -/
theorem runBatchChunks_flatten {α : Type} (batchSize : Nat) (hc : 0 < batchSize) :
    ∀ tasks : List α, (runBatchChunks batchSize tasks).flatten = tasks
  | [] => by simp [runBatchChunks]
  | t :: ts => by
      rw [runBatchChunks_cons batchSize hc, List.flatten_cons,
        runBatchChunks_flatten batchSize hc ((t :: ts).drop batchSize),
        List.take_append_drop]
termination_by tasks => tasks.length
decreasing_by
  simp only [List.length_drop, List.length_cons]
  omega

/-- Peak concurrency of a batch list, unfolded one batch. -/
theorem peakConcurrency_cons {α : Type} (l : List α) (ls : List (List α)) :
    peakConcurrency (l :: ls) = max l.length (peakConcurrency ls) := rfl

/-- No chunk of the dashboard's dispatch exceeds the configured batch size. -/
theorem runBatchChunks_peak {α : Type} (batchSize : Nat) (hc : 0 < batchSize) :
    ∀ tasks : List α, peakConcurrency (runBatchChunks batchSize tasks) ≤ batchSize
  | [] => by
      rw [runBatchChunks]
      exact Nat.zero_le _
  | t :: ts => by
      rw [runBatchChunks_cons batchSize hc, peakConcurrency_cons]
      refine max_le ?_ (runBatchChunks_peak batchSize hc ((t :: ts).drop batchSize))
      rw [List.length_take]
      exact min_le_left _ _
termination_by tasks => tasks.length
decreasing_by
  simp only [List.length_drop, List.length_cons]
  omega

/-- C7 counterexample to the claim as stated: the standalone load driver
`scripts/attack.go` does not partition its attempts into batches at all —
its dispatch is one single wave of all 500 configured requests, so peak
in-flight concurrency equals the total request count (500) and in
particular exceeds the dashboard's default configured concurrency of
100. -/
theorem c7_counterexample :
    attackWaves 500 = [List.range 500] ∧
    (attackWaves 500).length = 1 ∧
    peakConcurrency (attackWaves 500) = 500 ∧
    ¬ peakConcurrency (attackWaves 500) ≤ 100 := by
  refine ⟨rfl, rfl, ?_, ?_⟩
  · simp [attackWaves, peakConcurrency]
  · simp [attackWaves, peakConcurrency]

/-- C7 (amended): the dashboard load harness (`runBatch`) partitions the
requested attempts into sequential batches of the configured concurrency,
dispatching each batch concurrently and awaiting it before the next, so its
peak in-flight concurrency never exceeds the configured value and every
attempt is dispatched exactly once; the standalone `attack.go` driver
instead dispatches all attempts in one unconditional wave, with peak
concurrency equal to the total attempt count. -/
theorem c7_harness_batching {α : Type} (batchSize : Nat) (tasks : List α)
    (hc : 0 < batchSize) :
    (runBatchChunks batchSize tasks).flatten = tasks ∧
    peakConcurrency (runBatchChunks batchSize tasks) ≤ batchSize ∧
    peakConcurrency (attackWaves tasks.length) = tasks.length :=
  ⟨runBatchChunks_flatten batchSize hc tasks, runBatchChunks_peak batchSize hc tasks,
    by simp [attackWaves, peakConcurrency]⟩

/-- Witness for C7 (amended) at the dashboard defaults: 500 attempts at
concurrency 100. -/
theorem c7_harness_batching_witness :
    (runBatchChunks 100 (List.range 500)).flatten = List.range 500 ∧
    peakConcurrency (runBatchChunks 100 (List.range 500)) ≤ 100 ∧
    peakConcurrency (attackWaves (List.range 500).length) = (List.range 500).length :=
  c7_harness_batching 100 (List.range 500) (by norm_num)

/-- Reading the head of the products table. -/
theorem selectQuantity_cons (pid : Int) (p : Int × Int) (l : List (Int × Int)) :
    selectQuantity pid (p :: l) =
      if p.1 == pid then some p.2 else selectQuantity pid l := by
  rcases h : p.1 == pid with _ | _ <;> simp [selectQuantity, List.find?, h]

/-- The `/reset` handler's products update is idempotent row by row. -/
theorem reset_products_map_idem (l : List (Int × Int)) :
    ((l.map (fun p => if p.1 == 1 then (p.1, (100 : Int)) else p)).map
      (fun p => if p.1 == 1 then (p.1, (100 : Int)) else p)) =
    l.map (fun p => if p.1 == 1 then (p.1, (100 : Int)) else p) := by
  induction l with
  | nil => rfl
  | cons p ps ih =>
    simp only [List.map_cons, ih]
    congr 1
    rcases h : p.1 == 1 with _ | _
    · simp [h]
    · simp [h]

/-- After the `/reset` handler's products update, product 1 reads 100. -/
theorem selectQuantity_reset_map (l : List (Int × Int)) (q : Int)
    (hq : selectQuantity 1 l = some q) :
    selectQuantity 1 (l.map (fun p => if p.1 == 1 then (p.1, (100 : Int)) else p)) =
      some 100 := by
  induction l with
  | nil => simp [selectQuantity] at hq
  | cons p ps ih =>
    rw [selectQuantity_cons] at hq
    rcases h : p.1 == 1 with _ | _
    · rw [h] at hq
      simp only [Bool.false_eq_true, if_false] at hq
      simp only [List.map_cons, h, Bool.false_eq_true, if_false, selectQuantity_cons]
      exact ih hq
    · simp only [List.map_cons, h, if_true, selectQuantity_cons]

/-- C8: `reset()` is idempotent — applying the `/reset` handler twice yields
exactly the same state as applying it once, and that state has product 1's
quantity at 100, the cache counter at 100, no order rows, and all five
stats counters at zero.  The hypothesis says the seeded product row exists
(the handler's `UPDATE ... WHERE id = 1` can only restock an existing
row). -/
theorem c8_reset_idempotent (st : SysState) (q : Int)
    (hq : selectQuantity 1 st.products = some q) :
    resetHandler (resetHandler st) = resetHandler st ∧
    selectQuantity 1 (resetHandler st).products = some 100 ∧
    (resetHandler st).orders = [] ∧
    (resetHandler st).redis = some 100 ∧
    (resetHandler st).stats = ⟨0, 0, 0, 0, 0⟩ := by
  refine ⟨?_, selectQuantity_reset_map st.products q hq, rfl, rfl, rfl⟩
  unfold resetHandler
  rw [reset_products_map_idem]

/-- Witness for C8 at the seeded state. -/
theorem c8_reset_idempotent_witness :
    resetHandler (resetHandler initialState) = resetHandler initialState ∧
    selectQuantity 1 (resetHandler initialState).products = some 100 ∧
    (resetHandler initialState).orders = [] ∧
    (resetHandler initialState).redis = some 100 ∧
    (resetHandler initialState).stats = ⟨0, 0, 0, 0, 0⟩ :=
  c8_reset_idempotent initialState 100 (by decide)

/-- C9: a successful `syncCache()` (`/sync-redis`) sets the cache counter to
`max 0 (ledger quantity)` — whatever the counter held before, negative or
stale — and changes nothing else: the resulting state is the input state
with only the `redis` field replaced. -/
theorem c9_sync_cache (st : SysState) (q : Int)
    (hq : selectQuantity 1 st.products = some q) :
    syncRedisHandler st = some { st with redis := some (max 0 q) } := by
  have hmax : (if q < 0 then (0 : Int) else q) = max 0 q := by
    rcases le_or_lt 0 q with h | h
    · rw [if_neg (by omega), max_eq_right h]
    · rw [if_pos h, max_eq_left (by omega)]
  simp only [syncRedisHandler, hq, hmax]

/-- Witness for C9: a state whose cache counter has been forced negative
(−5) and whose ledger quantity is −3 resyncs the counter to 0. -/
theorem c9_sync_cache_witness :
    syncRedisHandler ⟨[(1, -3)], [], some (-5), resetStatsCounters⟩ =
      some ⟨[(1, -3)], [], some (max 0 (-3)), resetStatsCounters⟩ :=
  c9_sync_cache ⟨[(1, -3)], [], some (-5), resetStatsCounters⟩ (-3) (by decide)

/-- A naive attempt never touches `OversellCount`. -/
theorem purchaseNaive_oversell (req : PurchaseRequest) (f : NaiveFaults) (lat : Int)
    (st : SysState) :
    (purchaseNaive req f lat st).2.stats.oversellCount = st.stats.oversellCount := by
  simp only [purchaseNaive]
  rcases hq : selectQuantity req.productId (recordAttempt st).products with _ | q <;>
    repeat' split
  all_goals simp

/-- A locked attempt never touches `OversellCount`. -/
theorem purchasePostgresLock_oversell (req : PurchaseRequest) (f : LockFaults) (lat : Int)
    (st : SysState) :
    (purchasePostgresLock req f lat st).2.stats.oversellCount = st.stats.oversellCount := by
  simp only [purchasePostgresLock]
  rcases hq : selectQuantity req.productId (recordAttempt st).products with _ | q <;>
    repeat' split
  all_goals simp

/-- The gated ledger phase never touches `OversellCount`. -/
theorem gatedLedgerPhase_oversell (req : PurchaseRequest) (f : GatedFaults) (lat : Int)
    (st : SysState) :
    (gatedLedgerPhase req f lat st).2.stats.oversellCount = st.stats.oversellCount := by
  unfold gatedLedgerPhase
  repeat' split
  all_goals simp

/-- A gated attempt never touches `OversellCount`. -/
theorem purchaseRedisPostgres_oversell (req : PurchaseRequest) (f : GatedFaults) (lat : Int)
    (st : SysState) :
    (purchaseRedisPostgres req f lat st).2.stats.oversellCount = st.stats.oversellCount := by
  simp only [purchaseRedisPostgres]
  by_cases h1 : f.bindFails <;> simp only [h1, if_true, if_false, Bool.false_eq_true]
  · simp
  by_cases h2 : f.redisEvalFails <;> simp only [h2, if_true, if_false, Bool.false_eq_true]
  · simp
  by_cases h3 : (luaGate (recordAttempt st).redis).1 < 0
  · rw [if_pos h3]
    simp
  · rw [if_neg h3, gatedLedgerPhase_oversell]
    simp

/-- A `/sync-redis` call never touches the stats at all. -/
theorem syncRedisHandler_stats (st : SysState) :
    ((syncRedisHandler st).getD st).stats = st.stats := by
  unfold syncRedisHandler
  rcases h : selectQuantity 1 st.products with _ | q <;> simp

/-- Any single API call either leaves `OversellCount` unchanged or (for
`/reset`) stores zero into it. -/
theorem applyOp_oversell (st : SysState) (op : Op) :
    (applyOp st op).stats.oversellCount = st.stats.oversellCount ∨
    (applyOp st op).stats.oversellCount = 0 := by
  cases op with
  | naive req f lat => exact Or.inl (purchaseNaive_oversell req f lat st)
  | locked req f lat => exact Or.inl (purchasePostgresLock_oversell req f lat st)
  | gated req f lat => exact Or.inl (purchaseRedisPostgres_oversell req f lat st)
  | reset => exact Or.inr rfl
  | syncRedis =>
    left
    show ((syncRedisHandler st).getD st).stats.oversellCount = st.stats.oversellCount
    rw [syncRedisHandler_stats]
  | statsView => exact Or.inl rfl

/-- C10: no operation ever increments `OversellCount`: every handler leaves
it unchanged except `/reset`, which stores zero; consequently every stats
snapshot taken along any sequence of API calls from the reset state reports
`oversells = 0`.  Oversell is observable only through ledger state, never
through this counter. -/
theorem c10_oversell_counter_never_incremented :
    (∀ ops : List Op, getStatsOversells (runOps initialState ops) = 0) ∧
    (∀ (st : SysState) (op : Op),
      (applyOp st op).stats.oversellCount = st.stats.oversellCount ∨
      (applyOp st op).stats.oversellCount = 0) := by
  constructor
  · have key : ∀ (ops : List Op) (st : SysState), st.stats.oversellCount = 0 →
        (runOps st ops).stats.oversellCount = 0 := by
      intro ops
      induction ops with
      | nil => intro st h; exact h
      | cons op ops ih =>
        intro st h
        refine ih (applyOp st op) ?_
        rcases applyOp_oversell st op with h2 | h2
        · rw [h2, h]
        · exact h2
    intro ops
    exact key ops initialState rfl
  · exact applyOp_oversell


/-! ### The naive race, step by step -/

/-- Element lookup in a mixed thread list. -/
theorem mixedThreads_getElem (n i j : Nat) (hj : j < n) (pcA pcB : NaivePC) :
    (mixedThreads n i pcA pcB)[j]? =
      some { req := { userId := (j : Int), productId := 1 }
             pc := if j < i then pcA else pcB } := by
  simp [mixedThreads, List.getElem?_map, List.getElem?_range hj]

/-- Advancing thread `i` of a mixed thread list moves the frontier. -/
theorem mixedThreads_set (n i : Nat) (hi : i < n) (pcA pcB : NaivePC) :
    (mixedThreads n i pcA pcB).set i
        { req := { userId := (i : Int), productId := 1 }, pc := pcA } =
      mixedThreads n (i + 1) pcA pcB := by
  apply List.ext_getElem?
  intro j
  rw [List.getElem?_set]
  by_cases hij : i = j
  · subst hij
    have hlen : i < (mixedThreads n i pcA pcB).length := by
      simp [mixedThreads, hi]
    rw [if_pos rfl, if_pos hlen, mixedThreads_getElem n (i + 1) i hi]
    simp
  · rw [if_neg hij]
    by_cases hj : j < n
    · rw [mixedThreads_getElem n i j hj, mixedThreads_getElem n (i + 1) j hj]
      congr 2
      by_cases hji : j < i
      · rw [if_pos hji, if_pos (by omega)]
      · rw [if_neg hji, if_neg (by omega)]
    · rw [List.getElem?_eq_none, List.getElem?_eq_none]
      · simp [mixedThreads]
        omega
      · simp [mixedThreads]
        omega

/-- The read step of the race: thread `i` reads a positive quantity and
enters the delay window. -/
theorem naiveStep_read (n i : Nat) (hi : i < n) (sys : SysState) (q : Int)
    (hq : selectQuantity 1 sys.products = some q) (hpos : ¬ q ≤ 0) :
    naiveStep ⟨sys, mixedThreads n i .delaying .start⟩ i =
      ⟨recordAttempt sys, mixedThreads n (i + 1) .delaying .start⟩ := by
  have hget := mixedThreads_getElem n i i hi NaivePC.delaying NaivePC.start
  rw [if_neg (by omega)] at hget
  simp only [naiveStep, hget, recordAttempt_products, hq]
  rw [if_neg hpos, mixedThreads_set n i hi]

/-- The update step of the race: thread `i` unconditionally decrements
product 1's quantity. -/
theorem naiveStep_update (n i : Nat) (hi : i < n) (sys : SysState) :
    naiveStep ⟨sys, mixedThreads n i .updated .delaying⟩ i =
      ⟨{ sys with products := updateDecrementQuantity 1 sys.products },
        mixedThreads n (i + 1) .updated .delaying⟩ := by
  have hget := mixedThreads_getElem n i i hi NaivePC.updated NaivePC.delaying
  rw [if_neg (by omega)] at hget
  simp only [naiveStep, hget]
  rw [mixedThreads_set n i hi]

/-- The insert step of the race: thread `i` writes its order row and records
success. -/
theorem naiveStep_insert (n i : Nat) (hi : i < n) (sys : SysState)
    (hex : productRowExists 1 sys.products = true) :
    naiveStep ⟨sys, mixedThreads n i .finished .updated⟩ i =
      ⟨addLatency 0 (addSuccess
          { sys with orders := sys.orders ++
              [successOrder { userId := (i : Int), productId := 1 }] }),
        mixedThreads n (i + 1) .finished .updated⟩ := by
  have hget := mixedThreads_getElem n i i hi NaivePC.finished NaivePC.updated
  rw [if_neg (by omega)] at hget
  simp only [naiveStep, hget, hex, if_true]
  rw [mixedThreads_set n i hi]

/-- Unfolding one scheduled step. -/
theorem naiveRun_cons (cfg : NaiveConfig) (i : Nat) (sched : List Nat) :
    naiveRun cfg (i :: sched) = naiveRun (naiveStep cfg i) sched := rfl

/-- Splitting a schedule. -/
theorem naiveRun_append (cfg : NaiveConfig) (a b : List Nat) :
    naiveRun cfg (a ++ b) = naiveRun (naiveRun cfg a) b := by
  unfold naiveRun
  exact List.foldl_append _ _ _ _

/-- Read phase: threads `i..i+k-1` all read the same positive quantity (the
delay keeps each inside its race window), changing no table. -/
theorem naive_read_phase (n k : Nat) :
    ∀ (i : Nat) (sys : SysState) (q : Int), i + k ≤ n →
      selectQuantity 1 sys.products = some q → ¬ q ≤ 0 →
      ∃ sys2 : SysState,
        naiveRun ⟨sys, mixedThreads n i .delaying .start⟩ (List.range' i k) =
          ⟨sys2, mixedThreads n (i + k) .delaying .start⟩ ∧
        sys2.products = sys.products ∧ sys2.orders = sys.orders := by
  induction k with
  | zero =>
    intro i sys q _ _ _
    exact ⟨sys, by simp [naiveRun], rfl, rfl⟩
  | succ k ih =>
    intro i sys q hik hq hpos
    rw [List.range'_succ, naiveRun_cons, naiveStep_read n i (by omega) sys q hq hpos]
    obtain ⟨sys2, heq, hp, ho⟩ :=
      ih (i + 1) (recordAttempt sys) q (by omega) (by simpa using hq) hpos
    refine ⟨sys2, ?_, by rw [hp]; rfl, by rw [ho]; rfl⟩
    rw [heq, show i + 1 + k = i + (k + 1) from by omega]

/-- Update phase: threads `i..i+k-1` each decrement product 1's quantity,
with no quantity check. -/
theorem naive_update_phase (n k : Nat) :
    ∀ (i : Nat) (sys : SysState) (x : Int), i + k ≤ n →
      sys.products = [(1, x)] →
      ∃ sys2 : SysState,
        naiveRun ⟨sys, mixedThreads n i .updated .delaying⟩ (List.range' i k) =
          ⟨sys2, mixedThreads n (i + k) .updated .delaying⟩ ∧
        sys2.products = [(1, x - (k : Int))] ∧ sys2.orders = sys.orders := by
  induction k with
  | zero =>
    intro i sys x _ hp
    refine ⟨sys, by simp [naiveRun], ?_, rfl⟩
    rw [hp]
    norm_num
  | succ k ih =>
    intro i sys x hik hp
    rw [List.range'_succ, naiveRun_cons, naiveStep_update n i (by omega) sys]
    obtain ⟨sys2, heq, hp2, ho⟩ :=
      ih (i + 1) { sys with products := updateDecrementQuantity 1 sys.products } (x - 1)
        (by omega)
        (by rw [show ({ sys with products := updateDecrementQuantity 1 sys.products } :
              SysState).products = updateDecrementQuantity 1 sys.products from rfl, hp,
            updateDecrementQuantity_singleton]
            simp)
    refine ⟨sys2, ?_, ?_, by rw [ho]⟩
    · rw [heq, show i + 1 + k = i + (k + 1) from by omega]
    · rw [hp2]
      congr 2
      push_cast
      ring

/-- Insert phase: threads `i..i+k-1` each write their order row. -/
theorem naive_insert_phase (n k : Nat) :
    ∀ (i : Nat) (sys : SysState) (x : Int), i + k ≤ n →
      sys.products = [(1, x)] →
      ∃ sys2 : SysState,
        naiveRun ⟨sys, mixedThreads n i .finished .updated⟩ (List.range' i k) =
          ⟨sys2, mixedThreads n (i + k) .finished .updated⟩ ∧
        sys2.products = sys.products ∧ sys2.orders.length = sys.orders.length + k := by
  induction k with
  | zero =>
    intro i sys x _ _
    exact ⟨sys, by simp [naiveRun], rfl, rfl⟩
  | succ k ih =>
    intro i sys x hik hp
    have hex : productRowExists 1 sys.products = true := by
      rw [hp]
      simp [productRowExists]
    rw [List.range'_succ, naiveRun_cons, naiveStep_insert n i (by omega) sys hex]
    obtain ⟨sys2, heq, hp2, ho⟩ :=
      ih (i + 1)
        (addLatency 0 (addSuccess { sys with orders := sys.orders ++
          [successOrder { userId := (i : Int), productId := 1 }] })) x
        (by omega) (by simpa using hp)
    refine ⟨sys2, ?_, ?_, ?_⟩
    · rw [heq, show i + 1 + k = i + (k + 1) from by omega]
    · rw [hp2]
      simp
    · rw [ho]
      simp only [addLatency_orders, addSuccess_orders, List.length_append,
        List.length_singleton]
      omega

/-- The initial thread pool is a mixed list with frontier 0. -/
theorem naiveThreads_eq_mixed (n : Nat) (pcA : NaivePC) :
    naiveThreads n = mixedThreads n 0 pcA .start := by
  unfold naiveThreads mixedThreads
  apply List.map_congr_left
  intro j _
  simp

/-- A fully-swept mixed list restarts as a frontier-0 list for the next
phase. -/
theorem mixedThreads_saturate (n : Nat) (pcA pcB pcC : NaivePC) :
    mixedThreads n n pcA pcB = mixedThreads n 0 pcC pcA := by
  unfold mixedThreads
  apply List.map_congr_left
  intro j hj
  rw [List.mem_range] at hj
  simp [hj]

/-- Outcome of running the race schedule over `n` naive attempts from the
reset state: all `n` reads happen inside the delay windows before any
update, so all `n` attempts succeed and the quantity drops to `100 − n`. -/
theorem naive_race_run (n : Nat) :
    ∃ sys2 : SysState,
      naiveRun ⟨initialState, naiveThreads n⟩ (naiveRaceSchedule n) =
        ⟨sys2, mixedThreads n n .finished .updated⟩ ∧
      sys2.products = [(1, 100 - (n : Int))] ∧
      sys2.orders.length = n := by
  have hsched : naiveRaceSchedule n =
      (List.range' 0 n ++ List.range' 0 n) ++ List.range' 0 n := by
    unfold naiveRaceSchedule
    rw [List.range_eq_range']
  obtain ⟨s1, h1, h1p, h1o⟩ :=
    naive_read_phase n n 0 initialState 100 (by omega) (by decide) (by norm_num)
  obtain ⟨s2, h2, h2p, h2o⟩ :=
    naive_update_phase n n 0 s1 100 (by omega) (by rw [h1p]; rfl)
  obtain ⟨s3, h3, h3p, h3o⟩ :=
    naive_insert_phase n n 0 s2 (100 - (n : Int)) (by omega) h2p
  rw [show (0 + n) = n from by omega] at h1 h2 h3
  refine ⟨s3, ?_, ?_, ?_⟩
  · rw [hsched, naiveRun_append, naiveRun_append,
      naiveThreads_eq_mixed n NaivePC.delaying, h1,
      mixedThreads_saturate n NaivePC.delaying NaivePC.start NaivePC.updated, h2,
      mixedThreads_saturate n NaivePC.updated NaivePC.delaying NaivePC.finished, h3]
  · rw [h3p, h2p]
  · rw [h3o, h2o, h1o]
    simp [initialState]

/-- C2: for the Unprotected strategy with concurrency above the capacity and
the induced 5 ms delay, there is a schedule — all concurrent attempts read
the stock inside their delay windows before any of them writes — under
which 101 attempts all succeed from a capacity of 100: `successfulOrders =
101 > 100` and the quantity ends at −1.  The run function is deterministic,
so under this schedule the oversell is the uniquely determined outcome —
reproducible, not merely possible (the artificial delay is what realizes
exactly this read-all-then-write-all schedule in real time). -/
theorem c2_naive_oversell_schedule :
    ∃ sys2 : SysState,
      naiveRun ⟨initialState, naiveThreads 101⟩ (naiveRaceSchedule 101) =
        ⟨sys2, mixedThreads 101 101 .finished .updated⟩ ∧
      sys2.orders.length = 101 ∧
      100 < sys2.orders.length ∧
      selectQuantity 1 sys2.products = some (-1) := by
  obtain ⟨s, h, hp, ho⟩ := naive_race_run 101
  refine ⟨s, h, ho, by omega, ?_⟩
  rw [hp, selectQuantity_singleton]
  norm_num

end FlashSale
